import Mathlib

/-!
Shallow embedding of the request handler and history codec of the
gemini-image-editing-nextjs-quickstart repository (the POST route in
`src/components/ImagePromptInput.tsx`, lines 88-339 of the combined file).

JavaScript strings are modelled as `String`, optional JSON fields as
`Option String`, and the JS primitives used by the route
(`String.prototype.split(",")`, `String.prototype.includes`,
`String.prototype.startsWith`, the `/\s/g` strip and the
`/^([A-Za-z0-9+/=]+)$/` test) are translated character-by-character below.
-/

namespace ImageApi

/-- Roles of a conversation turn (`role: "user" | "model"`). -/
inductive Role where
  | user : Role
  | model : Role
  deriving DecidableEq, Repr

/-- `HistoryPart` from `@/lib/types`: `{ text?: string; image?: string }`. -/
structure HistoryPart where
  text : Option String
  image : Option String
  deriving DecidableEq, Repr

/-- `HistoryItem` from `@/lib/types`: `{ role; parts }`. -/
structure HistoryItem where
  role : Role
  parts : List HistoryPart
  deriving DecidableEq, Repr

/-- The `inlineData` payload of a wire part: `{ data: string; mimeType: string }`. -/
structure InlineData where
  data : String
  mimeType : String
  deriving DecidableEq, Repr

/-- A wire part as built by the route: a JS object holding either a `text`
field or an `inlineData` field (`FormattedHistoryItem.parts` element). -/
structure WirePart where
  text : Option String := none
  inlineData : Option InlineData := none
  deriving DecidableEq, Repr

/-- `FormattedHistoryItem`: `{ role; parts: Array<WirePart> }`. -/
structure FormattedHistoryItem where
  role : Role
  parts : List WirePart
  deriving DecidableEq, Repr

/-- JS truthiness of an optional string: `undefined`, `null` and `""` are
falsy, every other string is truthy. -/
def truthy : Option String → Bool
  | none => false
  | some s => if s = "" then false else true

/-- `Object.keys(part).length` for a wire part object, which the route's
filter compares against `0`. -/
def WirePart.numKeys (p : WirePart) : Nat :=
  (if p.text.isSome then 1 else 0) + (if p.inlineData.isSome then 1 else 0)

/-- Does `s` begin with the pattern `sub` (first argument)?  Character-level
model of the prefix test underlying `String.prototype.startsWith`. -/
def beginsWith : List Char → List Char → Bool
  | [], _ => true
  | _ :: _, [] => false
  | a :: as, b :: bs => (a == b) && beginsWith as bs

/-- Does `sub` occur as a contiguous substring of the second argument?
Character-level model of `String.prototype.includes`. -/
def occursIn (sub : List Char) : List Char → Bool
  | [] => beginsWith sub []
  | c :: cs => beginsWith sub (c :: cs) || occursIn sub cs

/-- `s.startsWith(pre)` in JS. -/
def jsStartsWith (s pre : String) : Bool :=
  beginsWith pre.toList s.toList

/-- `s.includes(sub)` in JS. -/
def includes (s sub : String) : Bool :=
  occursIn sub.toList s.toList

/-- `s.split(",")` in JS, on the character list: every maximal comma-free
run becomes a segment, `"" ↦ [""]`, separators at the ends produce empty
segments. -/
def splitOnComma : List Char → List (List Char)
  | [] => [[]]
  | c :: cs =>
    if c = ',' then [] :: splitOnComma cs
    else
      match splitOnComma cs with
      | [] => [[c]]
      | h :: t => (c :: h) :: t

/-- `s.split(",")` in JS. -/
def jsSplitComma (s : String) : List String :=
  (splitOnComma s.toList).map String.mk

/-- The JS `\s` character class, used by `replace(/\s/g, "")`: the
ECMAScript WhiteSpace and LineTerminator characters — tab, line feed,
vertical tab, form feed, carriage return, space, no-break space, the
Unicode space separators U+1680, U+2000-U+200A, U+202F, U+205F and U+3000,
the line separators U+2028 and U+2029, and the byte-order mark U+FEFF. -/
def isJsWs (c : Char) : Bool :=
  c == ' ' || c == '\t' || c == '\n' || c == '\r' || c == '\x0b' || c == '\x0c' ||
  c == '\u00A0' || c == '\u1680' || c == '\u2000' || c == '\u2001' || c == '\u2002' ||
  c == '\u2003' || c == '\u2004' || c == '\u2005' || c == '\u2006' || c == '\u2007' ||
  c == '\u2008' || c == '\u2009' || c == '\u200A' || c == '\u2028' || c == '\u2029' ||
  c == '\u202F' || c == '\u205F' || c == '\u3000' || c == '\uFEFF'

/-- One character of the base64 alphabet accepted by the route's regex
`[A-Za-z0-9+/=]`. -/
def isBase64Char (c : Char) : Bool :=
  c.isAlpha || c.isDigit || c == '+' || c == '/' || c == '='

/-- `/^([A-Za-z0-9+/=]+)$/.test(s)`: non-empty and every character in the
base64 alphabet. -/
def base64Test (l : List Char) : Bool :=
  !l.isEmpty && l.all isBase64Char

/-- Mime-type inference used at both call sites of the route:
`url.includes("image/png") ? "image/png" : "image/jpeg"`. -/
def inferMime (url : String) : String :=
  if includes url "image/png" then "image/png" else "image/jpeg"

/-- The part mapper of `formattedHistory` (route lines 192-210):
`text` when truthy; else for a truthy `image` on a `user` turn with at
least one comma in the data URL, an `inlineData` part from the second
comma segment; else `{ text: "" }`. -/
def mapPart (role : Role) (part : HistoryPart) : WirePart :=
  if truthy part.text then { text := part.text }
  else
    if truthy part.image ∧ role = Role.user then
      let imgParts := jsSplitComma (part.image.getD "")
      if imgParts.length > 1 then
        { inlineData := some { data := imgParts.getD 1 ""
                               mimeType := inferMime (part.image.getD "") } }
      else { text := some "" }
    else { text := some "" }

/-- One history item encoded to the wire format, including the
`Object.keys(part).length > 0` filter on parts (route line 211). -/
def encodeItem (item : HistoryItem) : FormattedHistoryItem :=
  { role := item.role
    parts := (item.parts.map (mapPart item.role)).filter (fun p => p.numKeys > 0) }

/-- `formattedHistory` (route lines 185-215): encode when non-empty, also
dropping encoded items whose parts array came out empty (line 214). -/
def encodeHistory (history : List HistoryItem) : List FormattedHistoryItem :=
  if history.length > 0 then
    (history.map encodeItem).filter (fun it => it.parts.length > 0)
  else []

/-- The JSON body of a request as the route reads it (after the JSON parse
step): `{ prompt, image: inputImage, history }`. -/
structure RequestData where
  prompt : String
  image : Option String
  history : List HistoryItem
  deriving DecidableEq, Repr

/-- The JSON envelope returned by the route together with the HTTP status
passed to `NextResponse.json`. -/
structure ApiResponse where
  success : Bool
  error : Option String
  details : Option String
  image : Option String
  description : Option String
  status : Nat
  deriving DecidableEq, Repr

/-- A failure envelope `{ success: false, error: msg }` with a status. -/
def err (status : Nat) (msg : String) : ApiResponse :=
  { success := false, error := some msg, details := none, image := none
    description := none, status := status }

/-- The envelope built by the inner catch (route lines 266-273):
`{ success: false, error: "Gemini API error", details }`, status 500. -/
def geminiErr (details : String) : ApiResponse :=
  { success := false, error := some "Gemini API error", details := some details
    image := none, description := none, status := 500 }

/-- Image validation block of the route (lines 156-181), run only when
`inputImage` is truthy.  Returns the early response when a check fails. -/
def validateImage (img : String) : Option ApiResponse :=
  if !jsStartsWith img "data:" then
    some (err 400 "Invalid image data URL format")
  else
    let imageParts := jsSplitComma img
    if imageParts.length < 2 then
      some (err 400 "Malformed image data URL")
    else
      let base64Image := imageParts.getD 1 ""
      let stripped := base64Image.toList.filter (fun c => !isJsWs c)
      if base64Image = "" || !base64Test stripped then
        some (err 400 "Image data is empty or not valid base64")
      else none

/-- `messageParts` construction (route lines 222-261): the prompt text part,
then when `inputImage` is truthy the inline-data part built from the data
URL; the two re-checks that `throw` inside the try block are the `error`
cases. -/
def buildMessageParts (prompt : String) (image : Option String) :
    Except String (List WirePart) :=
  let base : List WirePart := [{ text := some prompt }]
  if truthy image then
    let img := image.getD ""
    if !jsStartsWith img "data:" then
      Except.error "Invalid image data URL format"
    else
      let imageParts := jsSplitComma img
      if imageParts.length < 2 then
        Except.error "Invalid image data URL format"
      else
        let base64Image := imageParts.getD 1 ""
        Except.ok (base ++
          [{ inlineData := some { data := base64Image
                                  mimeType := inferMime img } }])
  else Except.ok base

/-- An inline-data part of a model response; `mimeType` may be absent. -/
structure RespInline where
  data : String
  mimeType : Option String
  deriving DecidableEq, Repr

/-- One part of the model response content: `inlineData` and/or `text`. -/
structure RespPart where
  inlineData : Option RespInline := none
  text : Option String := none
  deriving DecidableEq, Repr

/-- One candidate of the model response; the route reads
`candidates[0].content.parts`, flattened here to `parts`. -/
structure Candidate where
  parts : List RespPart
  deriving DecidableEq, Repr

/-- The model response object: `response.candidates`. -/
structure ModelResponse where
  candidates : List Candidate
  deriving DecidableEq, Repr

/-- State of the response-processing loop (route lines 277-305):
`textResponse`, `imageData` and `mimeType` mutated across parts. -/
structure DecodeState where
  textResponse : Option String
  imageData : Option String
  mimeType : String
  deriving DecidableEq, Repr

/-- `o || d` in JS for an optional string against a default. -/
def jsOrElse (o : Option String) (d : String) : String :=
  if truthy o then o.getD "" else d

/-- One iteration of the response loop: an inline-data part overwrites
`imageData` and `mimeType`; otherwise a truthy text part overwrites
`textResponse`. -/
def decodeStep (st : DecodeState) (p : RespPart) : DecodeState :=
  match p.inlineData with
  | some d =>
    { st with imageData := some d.data, mimeType := jsOrElse d.mimeType "image/png" }
  | none =>
    if truthy p.text then { st with textResponse := p.text } else st

/-- Response processing of the route (lines 275-327): first candidate only,
fold the loop over its parts, fail with 500 when no candidate or no truthy
image data, otherwise rebuild the data URL and return the success
envelope. -/
def processResponse (resp : ModelResponse) : ApiResponse :=
  match resp.candidates with
  | [] => err 500 "No response from Gemini API"
  | cand :: _ =>
    let st := cand.parts.foldl decodeStep
      { textResponse := none, imageData := none, mimeType := "image/png" }
    if !truthy st.imageData then err 500 "No image data in Gemini response"
    else
      { success := true, error := none, details := none
        image := some ("data:" ++ st.mimeType ++ ";base64," ++ st.imageData.getD "")
        description := if truthy st.textResponse then st.textResponse else none
        status := 200 }

/-- The POST handler (route lines 108-339) after the API-key and JSON-parse
steps, with the external call abstracted as `sendMessage`, which receives
the encoded history and the message parts and either fails with a message
(a thrown error) or returns the model response.  The second component of
the result records whether the external model was invoked. -/
def POST (req : RequestData)
    (sendMessage : List FormattedHistoryItem → List WirePart →
      Except String ModelResponse) :
    ApiResponse × Bool :=
  if req.prompt = "" then (err 400 "Prompt is required", false)
  else
    match (if truthy req.image then validateImage (req.image.getD "") else none) with
    | some resp => (resp, false)
    | none =>
      let formattedHistory := encodeHistory req.history
      match buildMessageParts req.prompt req.image with
      | Except.error e => (geminiErr e, false)
      | Except.ok messageParts =>
        match sendMessage formattedHistory messageParts with
        | Except.error e => (geminiErr e, true)
        | Except.ok result => (processResponse result, true)

/-- Round trip of claim C6: encode the data URL `data:<mime>;base64,<payload>`
through the history part mapper into an inline-data wire part, then decode a
model response containing that single wire part, returning the rebuilt data
URL of the success envelope. -/
def roundTrip (mime payload : String) : Option String :=
  let url := "data:" ++ mime ++ ";base64," ++ payload
  match (mapPart Role.user { text := none, image := some url }).inlineData with
  | none => none
  | some d =>
    (processResponse
      { candidates := [{ parts := [{ inlineData := some { data := d.data, mimeType := some d.mimeType }
                                     text := none }] }] }).image

/-! ### Helper lemmas about the JS string primitives -/

theorem truthy_some_iff (s : String) : truthy (some s) = true ↔ s ≠ "" := by
  by_cases h : s = "" <;> simp [truthy, h]

theorem toList_append (a b : String) : (a ++ b).toList = a.toList ++ b.toList := by
  cases a; cases b; rfl

theorem mk_toList (s : String) : String.mk s.toList = s := by
  cases s; rfl

theorem toList_eq_nil (s : String) : s.toList = [] ↔ s = "" := by
  cases s with
  | mk d =>
    constructor
    · intro h
      have hd : d = [] := h
      rw [hd]
    · intro h
      rw [h]
      rfl

theorem append_ne_empty (a b : String) (h : a ≠ "") : a ++ b ≠ "" := by
  intro he
  apply h
  have h1 : (a ++ b).toList = [] := (toList_eq_nil _).mpr he
  rw [toList_append] at h1
  rcases List.append_eq_nil.mp h1 with ⟨h2, _⟩
  exact (toList_eq_nil a).mp h2

theorem beginsWith_append (sub s t : List Char)
    (h : beginsWith sub s = true) : beginsWith sub (s ++ t) = true := by
  induction sub generalizing s with
  | nil => rfl
  | cons a as ih =>
    cases s with
    | nil => simp [beginsWith] at h
    | cons b bs =>
      simp only [beginsWith, Bool.and_eq_true] at h ⊢
      exact ⟨h.1, ih bs h.2⟩

theorem occursIn_nil (l : List Char) : occursIn [] l = true := by
  cases l <;> simp [occursIn, beginsWith]

theorem occursIn_append_left (sub a b : List Char)
    (h : occursIn sub a = true) : occursIn sub (a ++ b) = true := by
  induction a with
  | nil =>
    have hsub : sub = [] := by
      cases sub with
      | nil => rfl
      | cons x xs => simp [occursIn, beginsWith] at h
    rw [hsub]
    exact occursIn_nil _
  | cons c cs ih =>
    simp only [occursIn, Bool.or_eq_true] at h
    rcases h with h | h
    · have : beginsWith sub (c :: cs ++ b) = true := beginsWith_append _ _ _ h
      simp only [List.cons_append, occursIn, Bool.or_eq_true]
      exact Or.inl this
    · simp only [List.cons_append, occursIn, Bool.or_eq_true]
      exact Or.inr (ih h)

theorem splitOnComma_ne_nil (l : List Char) : splitOnComma l ≠ [] := by
  cases l with
  | nil => simp [splitOnComma]
  | cons c cs =>
    simp only [splitOnComma]
    by_cases h : c = ','
    · simp [h]
    · simp only [h, if_false]
      cases splitOnComma cs <;> simp

theorem splitOnComma_no_comma (l : List Char) (h : ',' ∉ l) :
    splitOnComma l = [l] := by
  induction l with
  | nil => rfl
  | cons c cs ih =>
    have hc : ¬ c = ',' := fun hh => h (hh ▸ List.mem_cons_self c cs)
    have hcs : ',' ∉ cs := fun hh => h (List.mem_cons_of_mem c hh)
    simp only [splitOnComma, hc, if_false, ih hcs]

theorem splitOnComma_pre (a p : List Char) (ha : ',' ∉ a) :
    splitOnComma (a ++ ',' :: p) = a :: splitOnComma p := by
  induction a with
  | nil => simp [splitOnComma]
  | cons c cs ih =>
    have hc : ¬ c = ',' := fun hh => ha (hh ▸ List.mem_cons_self c cs)
    have hcs : ',' ∉ cs := fun hh => ha (List.mem_cons_of_mem c hh)
    simp only [List.cons_append, splitOnComma, hc, if_false, List.append_eq, ih hcs]

/-! ### Lemmas about data URLs of the two shapes the claims mention -/

theorem pngUrl_toList (P : String) :
    ("data:image/png;base64," ++ P).toList =
      "data:image/png;base64".toList ++ ',' :: P.toList := by
  rw [toList_append]; rfl

theorem jpegUrl_toList (P : String) :
    ("data:image/jpeg;base64," ++ P).toList =
      "data:image/jpeg;base64".toList ++ ',' :: P.toList := by
  rw [toList_append]; rfl

theorem split_pngUrl (P : String) (h : ',' ∉ P.toList) :
    jsSplitComma ("data:image/png;base64," ++ P) = ["data:image/png;base64", P] := by
  unfold jsSplitComma
  rw [pngUrl_toList, splitOnComma_pre _ _ (by decide), splitOnComma_no_comma _ h]
  simp [mk_toList]

theorem split_jpegUrl (P : String) (h : ',' ∉ P.toList) :
    jsSplitComma ("data:image/jpeg;base64," ++ P) = ["data:image/jpeg;base64", P] := by
  unfold jsSplitComma
  rw [jpegUrl_toList, splitOnComma_pre _ _ (by decide), splitOnComma_no_comma _ h]
  simp [mk_toList]

theorem inferMime_pngUrl (P : String) :
    inferMime ("data:image/png;base64," ++ P) = "image/png" := by
  unfold inferMime includes
  rw [toList_append]
  rw [occursIn_append_left _ _ _ (by decide)]
  rfl

theorem occursIn_jpeg_shift (l : List Char) :
    occursIn "image/png".toList ("data:image/jpeg;base64,".toList ++ l) =
      occursIn "image/png".toList l := rfl

theorem inferMime_jpegUrl (P : String)
    (h : occursIn "image/png".toList P.toList = false) :
    inferMime ("data:image/jpeg;base64," ++ P) = "image/jpeg" := by
  unfold inferMime includes
  rw [toList_append, occursIn_jpeg_shift, h]
  rfl

theorem startsWith_pngUrl (P : String) :
    jsStartsWith ("data:image/png;base64," ++ P) "data:" = true := by
  unfold jsStartsWith
  rw [toList_append]
  rfl

theorem startsWith_jpegUrl (P : String) :
    jsStartsWith ("data:image/jpeg;base64," ++ P) "data:" = true := by
  unfold jsStartsWith
  rw [toList_append]
  rfl

/-! ### Lemmas about the codec and the handler -/

theorem mapPart_shape (role : Role) (p : HistoryPart) :
    (∃ t, mapPart role p = { text := some t, inlineData := none }) ∨
    (∃ d, mapPart role p = { text := none, inlineData := some d }) := by
  by_cases ht : truthy p.text = true
  · rcases hx : p.text with _ | t
    · rw [hx] at ht
      simp [truthy] at ht
    · left
      rw [hx] at ht
      exact ⟨t, by simp [mapPart, ht, hx]⟩
  · by_cases hi : truthy p.image = true ∧ role = Role.user
    · by_cases hl : 1 < (jsSplitComma (p.image.getD "")).length
      · right
        exact ⟨{ data := (jsSplitComma (p.image.getD "")).getD 1 ""
                 mimeType := inferMime (p.image.getD "") },
               by simp [mapPart, ht, hi, hl]⟩
      · left
        exact ⟨"", by simp [mapPart, ht, hi, hl]⟩
    · left
      exact ⟨"", by simp [mapPart, ht, hi]⟩

theorem mapPart_numKeys (role : Role) (p : HistoryPart) :
    (mapPart role p).numKeys = 1 := by
  rcases mapPart_shape role p with ⟨t, h⟩ | ⟨d, h⟩ <;> rw [h] <;> rfl

theorem encodeItem_parts (item : HistoryItem) :
    (encodeItem item).parts = item.parts.map (mapPart item.role) := by
  unfold encodeItem
  apply List.filter_eq_self.mpr
  intro p hp
  rcases List.mem_map.mp hp with ⟨q, _, hq⟩
  rw [← hq]
  simp [mapPart_numKeys]

theorem encodeItem_role (item : HistoryItem) :
    (encodeItem item).role = item.role := rfl

theorem encodeItem_parts_length (item : HistoryItem) :
    (encodeItem item).parts.length = item.parts.length := by
  rw [encodeItem_parts, List.length_map]

theorem encodeItem_parts_eq_nil_iff (item : HistoryItem) :
    (encodeItem item).parts = [] ↔ item.parts = [] := by
  rw [encodeItem_parts]
  simp

theorem encodeHistory_eq (h : List HistoryItem) :
    encodeHistory h = (h.map encodeItem).filter (fun it => it.parts.length > 0) := by
  cases h <;> simp [encodeHistory]

theorem mapPart_image_user (img : String) (himg : img ≠ "")
    (seg0 seg1 : String) (hs : jsSplitComma img = [seg0, seg1]) :
    mapPart Role.user { text := none, image := some img } =
      { text := none
        inlineData := some { data := seg1, mimeType := inferMime img } } := by
  have h1 : truthy (some img) = true := (truthy_some_iff img).mpr himg
  simp [mapPart, truthy, h1, hs, himg]

theorem buildMessageParts_some (prompt img : String) (himg : img ≠ "")
    (hstart : jsStartsWith img "data:" = true)
    (hlen : 2 ≤ (jsSplitComma img).length) :
    buildMessageParts prompt (some img) =
      Except.ok [{ text := some prompt },
        { inlineData := some { data := (jsSplitComma img).getD 1 ""
                               mimeType := inferMime img } }] := by
  have h1 : truthy (some img) = true := (truthy_some_iff img).mpr himg
  simp [buildMessageParts, h1, hstart, Nat.not_lt.mpr hlen]

theorem validateImage_none (img : String) (h : validateImage img = none) :
    jsStartsWith img "data:" = true ∧ 2 ≤ (jsSplitComma img).length := by
  cases hb : jsStartsWith img "data:" with
  | false =>
    rw [validateImage, hb] at h
    simp at h
  | true =>
    refine ⟨rfl, ?_⟩
    by_contra h2
    have h3 : (jsSplitComma img).length < 2 := Nat.lt_of_not_le h2
    rw [validateImage, hb] at h
    simp [h3, Nat.not_le.mpr h3] at h

theorem foldl_decodeStep_no_inline (ps : List RespPart) (st : DecodeState)
    (h : ∀ p ∈ ps, p.inlineData = none) :
    (ps.foldl decodeStep st).imageData = st.imageData := by
  induction ps generalizing st with
  | nil => rfl
  | cons p ps ih =>
    have hp := h p (List.mem_cons_self p ps)
    have hps : ∀ q ∈ ps, q.inlineData = none :=
      fun q hq => h q (List.mem_cons_of_mem p hq)
    rw [List.foldl_cons, ih _ hps]
    unfold decodeStep
    rw [hp]
    by_cases ht : truthy p.text = true <;> simp [ht]

theorem validateImage_some_shape (img : String) (resp : ApiResponse)
    (h : validateImage img = some resp) :
    resp.success = false ∧ resp.status = 400 ∧ resp.image = none ∧
      resp.error.isSome = true := by
  simp only [validateImage] at h
  split at h
  · cases h
    exact ⟨rfl, rfl, rfl, rfl⟩
  · split at h
    · cases h
      exact ⟨rfl, rfl, rfl, rfl⟩
    · split at h
      · cases h
        exact ⟨rfl, rfl, rfl, rfl⟩
      · cases h

theorem processResponse_shape (r : ModelResponse) :
    ((processResponse r).success = true ∧ (processResponse r).image.isSome = true ∧
      (processResponse r).status = 200) ∨
    ((processResponse r).success = false ∧ (processResponse r).image = none ∧
      (processResponse r).status = 500 ∧ (processResponse r).error.isSome = true) := by
  rcases hc : r.candidates with _ | ⟨cand, rest⟩
  · right
    simp [processResponse, hc, err]
  · by_cases h :
      truthy ((cand.parts.foldl decodeStep
        { textResponse := none, imageData := none, mimeType := "image/png" }).imageData) = true
    · left
      simp [processResponse, hc, h]
    · right
      have h' :
          truthy ((cand.parts.foldl decodeStep
            { textResponse := none, imageData := none, mimeType := "image/png" }).imageData) = false :=
        Bool.not_eq_true _ ▸ Bool.eq_false_iff.mpr h
      simp [processResponse, hc, h', err]

theorem POST_prompt_empty (req : RequestData)
    (f : List FormattedHistoryItem → List WirePart → Except String ModelResponse)
    (hp : req.prompt = "") :
    POST req f = (err 400 "Prompt is required", false) := by
  simp [POST, hp]

theorem POST_validation_fails (req : RequestData)
    (f : List FormattedHistoryItem → List WirePart → Except String ModelResponse)
    (resp : ApiResponse) (hp : req.prompt ≠ "")
    (hv : (if truthy req.image then validateImage (req.image.getD "") else none) = some resp) :
    POST req f = (resp, false) := by
  simp [POST, hp, hv]

theorem POST_ok_path (req : RequestData)
    (f : List FormattedHistoryItem → List WirePart → Except String ModelResponse)
    (hp : req.prompt ≠ "")
    (hv : (if truthy req.image then validateImage (req.image.getD "") else none) = none)
    (parts : List WirePart)
    (hb : buildMessageParts req.prompt req.image = Except.ok parts) :
    POST req f = (match f (encodeHistory req.history) parts with
      | Except.error e => (geminiErr e, true)
      | Except.ok r => (processResponse r, true)) := by
  rcases hm : f (encodeHistory req.history) parts with e | r <;>
    simp [POST, hp, hv, hb, hm]

theorem POST_snd_eq_true (req : RequestData)
    (f : List FormattedHistoryItem → List WirePart → Except String ModelResponse)
    (h : (POST req f).2 = true) :
    req.prompt ≠ "" ∧
    (if truthy req.image then validateImage (req.image.getD "") else none) = none ∧
    ∃ parts, buildMessageParts req.prompt req.image = Except.ok parts ∧
      (POST req f).1 = (match f (encodeHistory req.history) parts with
        | Except.error e => geminiErr e
        | Except.ok r => processResponse r) := by
  by_cases hp : req.prompt = ""
  · rw [POST_prompt_empty req f hp] at h
    cases h
  · rcases hv : (if truthy req.image then validateImage (req.image.getD "") else none) with
      _ | resp
    · rcases hb : buildMessageParts req.prompt req.image with e | parts
      · simp [POST, hp, hv, hb] at h
      · refine ⟨hp, rfl, parts, rfl, ?_⟩
        rw [POST_ok_path req f hp hv parts hb]
        rcases hm : f (encodeHistory req.history) parts with e | r <;> simp [hm]
    · rw [POST_validation_fails req f resp hp hv] at h
      cases h

theorem POST_result_shape (req : RequestData)
    (f : List FormattedHistoryItem → List WirePart → Except String ModelResponse) :
    ((POST req f).1.success = true ∧ (POST req f).1.image.isSome = true ∧
      (POST req f).1.status = 200) ∨
    ((POST req f).1.success = false ∧ (POST req f).1.image = none ∧
      (POST req f).1.error.isSome = true ∧
      ((POST req f).1.status = 400 ∨ (POST req f).1.status = 500)) := by
  by_cases hp : req.prompt = ""
  · right
    rw [POST_prompt_empty req f hp]
    exact ⟨rfl, rfl, rfl, Or.inl rfl⟩
  · rcases hv : (if truthy req.image then validateImage (req.image.getD "") else none) with
      _ | resp
    · rcases hb : buildMessageParts req.prompt req.image with e | parts
      · right
        have : POST req f = (geminiErr e, false) := by simp [POST, hp, hv, hb]
        rw [this]
        exact ⟨rfl, rfl, rfl, Or.inr rfl⟩
      · rw [POST_ok_path req f hp hv parts hb]
        rcases hm : f (encodeHistory req.history) parts with e | r

        · right
          exact ⟨rfl, rfl, rfl, Or.inr rfl⟩
        · rcases processResponse_shape r with hs | hs
          · left
            exact hs
          · right
            exact ⟨hs.1, hs.2.1, hs.2.2.2, Or.inr hs.2.2.1⟩
    · right
      rw [POST_validation_fails req f resp hp hv]
      have hs := validateImage_some_shape (req.image.getD "") resp (by
        by_cases ht : truthy req.image = true
        · rw [if_pos ht] at hv
          exact hv
        · rw [if_neg ht] at hv
          cases hv)
      exact ⟨hs.1, hs.2.2.1, hs.2.2.2, Or.inl hs.2.1⟩

/-! ### Claim theorems -/

/-- C1, counterexample: a history with one model-role turn whose single part
carries an image and no text does not encode to an empty, dropped wire turn
as the claim states — the encoded history keeps the turn, whose wire parts
are the one-field object `\x7btext: ""\x7d`, which the filter retains. -/
theorem c1_counterexample :
    encodeHistory [{ role := Role.model
                     parts := [{ text := none, image := some "data:image/png;base64,AAAA" }] }] =
      [{ role := Role.model, parts := [{ text := some "", inlineData := none }] }] ∧
    encodeHistory [{ role := Role.model
                     parts := [{ text := none, image := some "data:image/png;base64,AAAA" }] }] ≠
      [] := by
  constructor
  · rfl
  · decide

/-- C1, amended: for every model-role turn all of whose parts lack non-empty
text, encoding yields a wire turn with one empty-text part (`\x7btext: ""\x7d`,
which has a field, so the wire-part filter keeps it) per source part; when
the turn has at least one part the wire turn is retained in the encoded
history rather than dropped. -/
theorem c1_model_image_turn_kept (item : HistoryItem)
    (hrole : item.role = Role.model)
    (hne : item.parts ≠ [])
    (htext : ∀ p ∈ item.parts, truthy p.text = false) :
    encodeItem item =
      { role := Role.model
        parts := item.parts.map (fun _ => { text := some "", inlineData := none }) } ∧
    (∀ hist, item ∈ hist → encodeItem item ∈ encodeHistory hist) := by
  have hpart : ∀ p ∈ item.parts,
      mapPart item.role p = { text := some "", inlineData := none } := by
    intro p hp
    have h1 := htext p hp
    rw [hrole]
    simp [mapPart, h1]
  have hparts : (encodeItem item).parts =
      item.parts.map (fun _ => ({ text := some "", inlineData := none } : WirePart)) := by
    rw [encodeItem_parts]
    exact List.map_congr_left hpart
  constructor
  · calc encodeItem item = ⟨(encodeItem item).role, (encodeItem item).parts⟩ := rfl
      _ = ⟨Role.model, item.parts.map (fun _ => { text := some "", inlineData := none })⟩ := by
        rw [encodeItem_role, hrole, hparts]
  · intro hist hmem
    rw [encodeHistory_eq]
    apply List.mem_filter.mpr
    refine ⟨List.mem_map_of_mem _ hmem, ?_⟩
    simp only [decide_eq_true_eq, gt_iff_lt]
    rw [encodeItem_parts_length]
    exact List.length_pos.mpr hne

/-- C1, witness for the amended theorem at a concrete model turn. -/
theorem c1_witness :
    encodeItem { role := Role.model
                 parts := [{ text := none, image := some "data:image/png;base64,AAAA" }] } =
      { role := Role.model, parts := [{ text := some "", inlineData := none }] } ∧
    encodeItem { role := Role.model
                 parts := [{ text := none, image := some "data:image/png;base64,AAAA" }] } ∈
      encodeHistory [{ role := Role.model
                       parts := [{ text := none, image := some "data:image/png;base64,AAAA" }] }] := by
  have h := c1_model_image_turn_kept
    { role := Role.model
      parts := [{ text := none, image := some "data:image/png;base64,AAAA" }] }
    rfl (by decide) (by decide)
  exact ⟨h.1, h.2 _ (by decide)⟩

/-- C9: the part mapper sends every history part to exactly one wire part
carrying exactly one field, so the wire-part filter keeps every produced
wire part; a wire turn is dropped exactly when the source turn's parts were
empty; and for histories all of whose turns have non-empty parts, the
encoded history preserves the turn count and every turn's part count. -/
theorem c9_encoding_preserves_structure :
    (∀ role p, (mapPart role p).numKeys = 1) ∧
    (∀ item, (encodeItem item).parts = item.parts.map (mapPart item.role)) ∧
    (∀ item, (encodeItem item).parts.length = item.parts.length) ∧
    (∀ h, encodeHistory h =
      (h.map encodeItem).filter (fun it => it.parts.length > 0)) ∧
    (∀ item, (encodeItem item).parts = [] ↔ item.parts = []) ∧
    (∀ h, (∀ it ∈ h, it.parts ≠ []) →
      (encodeHistory h).map (fun it => it.parts.length) =
        h.map (fun it => it.parts.length)) := by
  refine ⟨mapPart_numKeys, encodeItem_parts, encodeItem_parts_length, encodeHistory_eq,
    encodeItem_parts_eq_nil_iff, ?_⟩
  intro h hh
  rw [encodeHistory_eq]
  have hfil : (h.map encodeItem).filter (fun it => it.parts.length > 0) =
      h.map encodeItem := by
    apply List.filter_eq_self.mpr
    intro it hit
    rcases List.mem_map.mp hit with ⟨src, hsrc, hmap⟩
    simp only [decide_eq_true_eq, gt_iff_lt]
    rw [← hmap, encodeItem_parts_length]
    exact List.length_pos.mpr (hh src hsrc)
  rw [hfil, List.map_map]
  apply List.map_congr_left
  intro it _
  simp only [Function.comp_apply]
  exact encodeItem_parts_length it

/-- C9, witness for the final conjunct at a concrete two-turn history. -/
theorem c9_witness :
    (encodeHistory
      [{ role := Role.user
         parts := [{ text := some "hi", image := none },
                   { text := none, image := some "data:image/png;base64,AA" }] },
       { role := Role.model, parts := [{ text := some "ok", image := none }] }]).map
      (fun it => it.parts.length) = [2, 1] := by
  rw [c9_encoding_preserves_structure.2.2.2.2.2 _ (by decide)]
  decide

/-- C10: a user-role history part with no non-empty text whose image data
URL contains no comma encodes to the empty-text wire part `\x7btext: ""\x7d`
rather than an inline-data part, and that wire part survives into the
encoded wire turn. -/
theorem c10_no_comma_empty_text (part : HistoryPart) (img : String)
    (htext : truthy part.text = false) (himg : part.image = some img)
    (hcomma : ',' ∉ img.toList) :
    mapPart Role.user part = { text := some "", inlineData := none } ∧
    (∀ item : HistoryItem, item.role = Role.user → part ∈ item.parts →
      ({ text := some "", inlineData := none } : WirePart) ∈ (encodeItem item).parts) := by
  have hmap : mapPart Role.user part = { text := some "", inlineData := none } := by
    by_cases h0 : img = ""
    · have h2 : truthy part.image = false := by
        rw [himg, h0]
        rfl
      simp [mapPart, htext, h2]
    · have h2 : truthy part.image = true := by
        rw [himg]
        exact (truthy_some_iff img).mpr h0
      have hs : jsSplitComma img = [img] := by
        unfold jsSplitComma
        rw [splitOnComma_no_comma _ hcomma]
        simp [mk_toList]
      simp [mapPart, htext, h2, himg, hs]
  refine ⟨hmap, ?_⟩
  intro item hrole hmem
  rw [encodeItem_parts, hrole, ← hmap]
  exact List.mem_map_of_mem _ hmem

/-- C10, witness at a concrete comma-free image part. -/
theorem c10_witness :
    mapPart Role.user { text := none, image := some "nocomma" } =
      { text := some "", inlineData := none } ∧
    ({ text := some "", inlineData := none } : WirePart) ∈
      (encodeItem { role := Role.user
                    parts := [{ text := none, image := some "nocomma" }] }).parts := by
  have h := c10_no_comma_empty_text { text := none, image := some "nocomma" } "nocomma"
    rfl rfl (by decide)
  exact ⟨h.1, h.2 _ rfl (by decide)⟩

/-- C3, counterexample: for the whitespace-only prompt " " the handler does
not return a 400 validation failure and does invoke the external model:
`!prompt` is false for a non-empty string, so the request reaches
`chat.sendMessage`, here with a failing model giving a 500 upstream
error. -/
theorem c3_counterexample :
    POST { prompt := " ", image := none, history := [] }
        (fun _ _ => Except.error "boom") =
      (geminiErr "boom", true) ∧
    (geminiErr "boom").status ≠ 400 := by
  constructor
  · rfl
  · decide

/-- C3, amended: only for the prompt that is exactly the empty string (the
sole falsy string) does the handler return the 400 "Prompt is required"
failure without invoking the external model; whitespace-only prompts are
not rejected. -/
theorem c3_empty_prompt_rejected (req : RequestData)
    (f : List FormattedHistoryItem → List WirePart → Except String ModelResponse)
    (hp : req.prompt = "") :
    POST req f = (err 400 "Prompt is required", false) :=
  POST_prompt_empty req f hp

/-- C3, witness at the concrete empty prompt. -/
theorem c3_witness :
    POST { prompt := "", image := none, history := [] }
        (fun _ _ => Except.error "boom") =
      (err 400 "Prompt is required", false) :=
  c3_empty_prompt_rejected { prompt := "", image := none, history := [] }
    (fun _ _ => Except.error "boom") rfl

/-- C4: for requests with a non-empty prompt that supply a (truthy) image,
validation short-circuits in order before the external call: a string not
starting with "data:" gives the 400 invalid-format error; else fewer than
two comma segments gives the 400 malformed-data-URL error; else a payload
segment that is empty after whitespace stripping or contains a character
outside the base64 alphabet gives the 400 invalid-base64 error — and the
model is never invoked in any of the three cases. -/
theorem c4_image_validation_order (p img : String) (hist : List HistoryItem)
    (f : List FormattedHistoryItem → List WirePart → Except String ModelResponse)
    (hp : p ≠ "") (himg : img ≠ "") :
    (jsStartsWith img "data:" = false →
      POST { prompt := p, image := some img, history := hist } f =
        (err 400 "Invalid image data URL format", false)) ∧
    (jsStartsWith img "data:" = true → (jsSplitComma img).length < 2 →
      POST { prompt := p, image := some img, history := hist } f =
        (err 400 "Malformed image data URL", false)) ∧
    (jsStartsWith img "data:" = true → 2 ≤ (jsSplitComma img).length →
      (((jsSplitComma img).getD 1 "").toList.filter (fun c => !isJsWs c) = [] ∨
        ¬ (((jsSplitComma img).getD 1 "").toList.filter (fun c => !isJsWs c)).all
            isBase64Char = true) →
      POST { prompt := p, image := some img, history := hist } f =
        (err 400 "Image data is empty or not valid base64", false)) := by
  have ht : truthy (some img) = true := (truthy_some_iff img).mpr himg
  refine ⟨?_, ?_, ?_⟩
  · intro hstart
    apply POST_validation_fails _ _ _ hp
    simp only [ht, if_true, if_pos]
    simp [validateImage, hstart]
  · intro hstart hlen
    apply POST_validation_fails _ _ _ hp
    simp only [ht, if_true, if_pos]
    simp [validateImage, hstart, hlen]
  · intro hstart hlen hbad
    apply POST_validation_fails _ _ _ hp
    simp only [ht, if_true, if_pos]
    have hb64 : base64Test
        (((jsSplitComma img).getD 1 "").toList.filter (fun c => !isJsWs c)) = false := by
      rcases hbad with hnil | hall
      · rw [hnil]
        rfl
      · simp only [base64Test, Bool.and_eq_false_iff]
        right
        exact Bool.eq_false_iff.mpr hall
    simp [validateImage, hstart, Nat.not_lt.mpr hlen, hb64]
    intro _
    simpa [List.getD_eq_getElem?_getD, String.toList] using hb64

/-- C4, witness: the three validation failures at concrete images. -/
theorem c4_witness :
    POST { prompt := "p", image := some "not-a-data-url", history := [] }
        (fun _ _ => Except.error "boom") =
      (err 400 "Invalid image data URL format", false) ∧
    POST { prompt := "p", image := some "data:image/png;base64", history := [] }
        (fun _ _ => Except.error "boom") =
      (err 400 "Malformed image data URL", false) ∧
    POST { prompt := "p", image := some "data:image/png;base64,A!A", history := [] }
        (fun _ _ => Except.error "boom") =
      (err 400 "Image data is empty or not valid base64", false) := by
  refine ⟨?_, ?_, ?_⟩
  · exact (c4_image_validation_order "p" "not-a-data-url" []
      (fun _ _ => Except.error "boom") (by decide) (by decide)).1 (by decide)
  · exact (c4_image_validation_order "p" "data:image/png;base64" []
      (fun _ _ => Except.error "boom") (by decide) (by decide)).2.1 (by decide) (by decide)
  · exact (c4_image_validation_order "p" "data:image/png;base64,A!A" []
      (fun _ _ => Except.error "boom") (by decide) (by decide)).2.2 (by decide) (by decide)
      (by decide)

/-- C8: every failure of the external call is caught and turned into the
structured envelope with status 500 and the underlying message in
`details`; moreover every handler outcome is either a success or a
structured failure with an error message and a 400 or 500 status — no
unhandled fault. -/
theorem c8_upstream_errors_caught :
    (∀ req (e : String),
      (POST req (fun _ _ => Except.error e)).2 = true →
      (POST req (fun _ _ => Except.error e)).1 = geminiErr e ∧
      (geminiErr e).success = false ∧ (geminiErr e).status = 500 ∧
      (geminiErr e).details = some e) ∧
    (∀ req f, (POST req f).1.success = true ∨
      ((POST req f).1.success = false ∧ (POST req f).1.error.isSome = true ∧
        ((POST req f).1.status = 400 ∨ (POST req f).1.status = 500))) := by
  constructor
  · intro req e h
    rcases POST_snd_eq_true req (fun _ _ => Except.error e) h with ⟨_, _, parts, _, hres⟩
    exact ⟨hres, rfl, rfl, rfl⟩
  · intro req f
    rcases POST_result_shape req f with hs | hs
    · exact Or.inl hs.1
    · exact Or.inr ⟨hs.1, hs.2.2.1, hs.2.2.2⟩

/-- C8, witness: a failing model call on a valid request yields the 500
envelope carrying the message. -/
theorem c8_witness :
    (POST { prompt := "p", image := none, history := [] }
        (fun _ _ => Except.error "upstream failed")).1 = geminiErr "upstream failed" ∧
    (geminiErr "upstream failed").status = 500 := by
  refine ⟨?_, rfl⟩
  exact (c8_upstream_errors_caught.1 { prompt := "p", image := none, history := [] }
    "upstream failed" (by decide)).1

theorem getD_pair_one (a b : String) : ([a, b] : List String).getD 1 "" = b := rfl

/-- C2: the handler never returns a success envelope without an image; when
the model call is reached and the reply has no inline-data part in any
candidate (e.g. a text-only reply), the handler returns a failure envelope
with a 500 status and no image field. -/
theorem c2_success_has_image :
    (∀ req f, (POST req f).1.success = true → (POST req f).1.image.isSome = true) ∧
    (∀ req (r : ModelResponse),
      (∀ c ∈ r.candidates, ∀ q ∈ c.parts, q.inlineData = none) →
      (POST req (fun _ _ => Except.ok r)).2 = true →
      (POST req (fun _ _ => Except.ok r)).1.success = false ∧
      (POST req (fun _ _ => Except.ok r)).1.status = 500 ∧
      (POST req (fun _ _ => Except.ok r)).1.image = none) := by
  constructor
  · intro req f hsucc
    rcases POST_result_shape req f with hs | hs
    · exact hs.2.1
    · rw [hs.1] at hsucc
      cases hsucc
  · intro req r hno h
    rcases POST_snd_eq_true req (fun _ _ => Except.ok r) h with ⟨_, _, parts, _, hres⟩
    rw [hres]
    rcases hc : r.candidates with _ | ⟨cand, rest⟩
    · simp [processResponse, hc, err]
    · have hmem : cand ∈ r.candidates := by
        rw [hc]
        exact List.mem_cons_self _ _
      have hfold : ((cand.parts.foldl decodeStep
          { textResponse := none, imageData := none, mimeType := "image/png" }).imageData) =
            none :=
        foldl_decodeStep_no_inline _ _ (fun q hq => hno cand hmem q hq)
      simp [processResponse, hc, hfold, truthy, err]

/-- C2, witness: a valid request with a text-only model reply yields the 500
no-image failure. -/
theorem c2_witness :
    (POST { prompt := "hi", image := none, history := [] }
      (fun _ _ => Except.ok
        { candidates := [{ parts := [{ inlineData := none, text := some "only text" }] }] })).1.success
        = false ∧
    (POST { prompt := "hi", image := none, history := [] }
      (fun _ _ => Except.ok
        { candidates := [{ parts := [{ inlineData := none, text := some "only text" }] }] })).1.status
        = 500 ∧
    (POST { prompt := "hi", image := none, history := [] }
      (fun _ _ => Except.ok
        { candidates := [{ parts := [{ inlineData := none, text := some "only text" }] }] })).1.image
        = none :=
  c2_success_has_image.2 { prompt := "hi", image := none, history := [] }
    { candidates := [{ parts := [{ inlineData := none, text := some "only text" }] }] }
    (by decide) (by decide)

/-- C5, counterexample: the data URL `data:image/jpeg;base64,image/png` has
the jpeg form `data:image/jpeg;base64,<P>` with payload `P = "image/png"`
(all payload characters are in the base64 alphabet), yet the encoder infers
mime type `image/png`, not `image/jpeg`, because the substring match looks
anywhere in the URL. -/
theorem c5_counterexample :
    mapPart Role.user { text := none, image := some "data:image/jpeg;base64,image/png" } =
      { text := none
        inlineData := some { data := "image/png", mimeType := "image/png" } } ∧
    ("image/png" : String) ≠ "image/jpeg" := by
  constructor
  · rfl
  · decide

/-- C5, amended: mime inference is png exactly when "image/png" occurs
anywhere in the data URL and jpeg otherwise; thus every png-form URL infers
`image/png`, and a jpeg-form URL infers `image/jpeg` provided its payload
does not itself contain "image/png" — at both call sites (history image
parts and the current-turn edit-image part). -/
theorem c5_mime_inference (P : String) (hcomma : ',' ∉ P.toList) :
    mapPart Role.user { text := none, image := some ("data:image/png;base64," ++ P) } =
      { text := none, inlineData := some { data := P, mimeType := "image/png" } } ∧
    (occursIn "image/png".toList P.toList = false →
      mapPart Role.user { text := none, image := some ("data:image/jpeg;base64," ++ P) } =
        { text := none, inlineData := some { data := P, mimeType := "image/jpeg" } }) ∧
    (∀ prompt, buildMessageParts prompt (some ("data:image/png;base64," ++ P)) =
      Except.ok [{ text := some prompt, inlineData := none },
        { text := none, inlineData := some { data := P, mimeType := "image/png" } }]) ∧
    (∀ prompt, occursIn "image/png".toList P.toList = false →
      buildMessageParts prompt (some ("data:image/jpeg;base64," ++ P)) =
        Except.ok [{ text := some prompt, inlineData := none },
          { text := none, inlineData := some { data := P, mimeType := "image/jpeg" } }]) := by
  have hne1 : ("data:image/png;base64," ++ P) ≠ "" := append_ne_empty _ _ (by decide)
  have hne2 : ("data:image/jpeg;base64," ++ P) ≠ "" := append_ne_empty _ _ (by decide)
  have hsp1 := split_pngUrl P hcomma
  have hsp2 := split_jpegUrl P hcomma
  refine ⟨?_, ?_, ?_, ?_⟩
  · rw [mapPart_image_user _ hne1 _ _ hsp1, inferMime_pngUrl]
  · intro hocc
    rw [mapPart_image_user _ hne2 _ _ hsp2, inferMime_jpegUrl P hocc]
  · intro prompt
    rw [buildMessageParts_some prompt _ hne1 (startsWith_pngUrl P)
      (by rw [hsp1]; exact Nat.le_refl 2)]
    rw [hsp1, inferMime_pngUrl, getD_pair_one]
  · intro prompt hocc
    rw [buildMessageParts_some prompt _ hne2 (startsWith_jpegUrl P)
      (by rw [hsp2]; exact Nat.le_refl 2)]
    rw [hsp2, inferMime_jpegUrl P hocc, getD_pair_one]

/-- C5, witness at the concrete payload "AAAA". -/
theorem c5_witness :
    mapPart Role.user { text := none, image := some ("data:image/png;base64," ++ "AAAA") } =
      { text := none, inlineData := some { data := "AAAA", mimeType := "image/png" } } ∧
    mapPart Role.user { text := none, image := some ("data:image/jpeg;base64," ++ "AAAA") } =
      { text := none, inlineData := some { data := "AAAA", mimeType := "image/jpeg" } } := by
  have h := c5_mime_inference "AAAA" (by decide)
  exact ⟨h.1, h.2.1 (by decide)⟩

/-- C6, counterexample: for the pair (mime, payload) = ("image/gif", "AAAA")
the encode/decode round trip yields `data:image/jpeg;base64,AAAA`, not the
original `data:image/gif;base64,AAAA`, because encoding collapses every
mime type without the "image/png" substring to jpeg. -/
theorem c6_counterexample :
    roundTrip "image/gif" "AAAA" = some "data:image/jpeg;base64,AAAA" ∧
    roundTrip "image/gif" "AAAA" ≠
      some ("data:" ++ "image/gif" ++ ";base64," ++ "AAAA") := by
  constructor
  · rfl
  · decide

/-- C6, amended: the round trip restores the original data URL for the two
mime types the encoder can produce (`image/png`, `image/jpeg`), a non-empty
comma-free payload, and — in the jpeg case — a payload not containing the
substring "image/png". -/
theorem c6_round_trip (mime P : String)
    (hmime : mime = "image/png" ∨ mime = "image/jpeg")
    (hP : P ≠ "") (hcomma : ',' ∉ P.toList)
    (hocc : mime = "image/jpeg" → occursIn "image/png".toList P.toList = false) :
    roundTrip mime P = some ("data:" ++ mime ++ ";base64," ++ P) := by
  have htP : truthy (some P) = true := (truthy_some_iff P).mpr hP
  rcases hmime with h | h <;> subst h
  · have hpre : ("data:" ++ "image/png" ++ ";base64,") = "data:image/png;base64," := by
      decide
    have hne : ("data:image/png;base64," ++ P) ≠ "" := append_ne_empty _ _ (by decide)
    unfold roundTrip
    rw [hpre]
    dsimp only
    rw [mapPart_image_user _ hne _ _ (split_pngUrl P hcomma), inferMime_pngUrl]
    simp [processResponse, decodeStep, jsOrElse, htP, truthy, hP]
  · have hpre : ("data:" ++ "image/jpeg" ++ ";base64,") = "data:image/jpeg;base64," := by
      decide
    have hne : ("data:image/jpeg;base64," ++ P) ≠ "" := append_ne_empty _ _ (by decide)
    unfold roundTrip
    rw [hpre]
    dsimp only
    rw [mapPart_image_user _ hne _ _ (split_jpegUrl P hcomma),
      inferMime_jpegUrl P (hocc rfl)]
    simp [processResponse, decodeStep, jsOrElse, htP, truthy, hP]

/-- C6, witness at ("image/png", "AAAA"). -/
theorem c6_witness :
    roundTrip "image/png" "AAAA" = some ("data:" ++ "image/png" ++ ";base64," ++ "AAAA") :=
  c6_round_trip "image/png" "AAAA" (Or.inl rfl) (by decide) (by decide)
    (fun h => absurd h (by decide))

/-- C7, counterexample: the request image `data:image/png;base64,AA,BB`
passes validation, yet the inline-data part's data is "AA" — the segment
between the first and second commas — while the substring after the first
comma is "AA,BB". -/
theorem c7_counterexample :
    validateImage "data:image/png;base64,AA,BB" = none ∧
    buildMessageParts "p" (some "data:image/png;base64,AA,BB") =
      Except.ok [{ text := some "p", inlineData := none },
        { text := none, inlineData := some { data := "AA", mimeType := "image/png" } }] ∧
    ("AA" : String) ≠ "AA,BB" := by
  refine ⟨rfl, rfl, by decide⟩

/-- C7, amended: for every valid request the current-turn message's first
part is the prompt text verbatim; when a (truthy) edit image that passes
validation is supplied, exactly one inline-data part is appended whose data
is the second comma-separated segment of the data URL (equal to the
substring after the first comma whenever the payload contains no further
comma); and for an empty history the encoded wire history is empty while
the current-turn message still holds the prompt text part. -/
theorem c7_message_parts (prompt img : String) :
    buildMessageParts prompt none =
      Except.ok [{ text := some prompt, inlineData := none }] ∧
    (validateImage img = none → img ≠ "" →
      buildMessageParts prompt (some img) =
        Except.ok [{ text := some prompt, inlineData := none },
          { text := none
            inlineData := some { data := (jsSplitComma img).getD 1 ""
                                 mimeType := inferMime img } }]) ∧
    encodeHistory [] = [] := by
  refine ⟨rfl, ?_, rfl⟩
  intro hval hne
  rcases validateImage_none img hval with ⟨hstart, hlen⟩
  exact buildMessageParts_some prompt img hne hstart hlen

/-- C7, witness at a concrete valid request. -/
theorem c7_witness :
    buildMessageParts "edit it" (some "data:image/png;base64,AA") =
      Except.ok [{ text := some "edit it", inlineData := none },
        { text := none
          inlineData := some { data := (jsSplitComma "data:image/png;base64,AA").getD 1 ""
                               mimeType := inferMime "data:image/png;base64,AA" } }] :=
  (c7_message_parts "edit it" "data:image/png;base64,AA").2.1 (by decide) (by decide)

end ImageApi
